import Mathlib

/-!
Shallow embedding of `src/legacy-components/ui/models/hostmodels.py`
(class `HostsTableModel`): host records, safe field access, the
display/decoration/font projections of `data`, the `sort` operation with
its layout notifications, and the IP lookup helpers.

Python values relevant to this model are strings, integers and booleans;
`None` is modelled by `Option.none` at the places where the code can
produce it.
-/

namespace Legion

/-- A Python value stored in a host record: a string, an int or a bool. -/
inductive PyVal where
  | vStr (s : String)
  | vInt (n : Int)
  | vBool (b : Bool)
deriving DecidableEq

/-- Python truthiness: empty string, `0` and `False` are falsy. -/
def pyTruthy : PyVal → Bool
  | .vStr s => !(s == "")
  | .vInt n => !(n == 0)
  | .vBool b => b

/-- Python `==` on these values: strings compare only with strings;
`True == 1` and `False == 0` hold across bool/int. -/
def pyEq : PyVal → PyVal → Bool
  | .vStr a, .vStr b => a == b
  | .vInt a, .vInt b => a == b
  | .vBool a, .vBool b => a == b
  | .vBool a, .vInt b => (if a then (1 : Int) else 0) == b
  | .vInt a, .vBool b => a == (if b then (1 : Int) else 0)
  | _, _ => false

/-- Python `==` where either side may be `None` (`None` equals only `None`). -/
def pyEqOpt : Option PyVal → Option PyVal → Bool
  | none, none => true
  | some a, some b => pyEq a b
  | _, _ => false

/-- Python `str(...)` of a value. -/
def pyStr : PyVal → String
  | .vStr s => s
  | .vInt n => toString n
  | .vBool b => if b then "True" else "False"

/-- Python `str(...)` where the argument may be `None` (`str(None) = "None"`). -/
def pyStrOpt : Option PyVal → String
  | none => "None"
  | some v => pyStr v

/-- A host record: either a mapping from field names to values (structured
form, Python `dict`) or a compact 2-element tuple `(ip, id)`. -/
inductive HostRecord where
  | dict (m : List (String × PyVal))
  | tup (ip idv : PyVal)
deriving DecidableEq

/-- `HostsTableModel.getSafeHostField`: bounds-check the row, then resolve
the key on the record's shape; every failure path yields `none`. -/
def getSafeHostField (hosts : List HostRecord) (row : Int) (key : String) :
    Option PyVal :=
  if row < 0 ∨ (hosts.length : Int) ≤ row then none
  else
    match hosts[row.toNat]? with
    | some (.dict m) => m.lookup key
    | some (.tup ip idv) =>
        if key == "ip" then some ip
        else if key == "id" then some idv
        else none
    | none => none

/-- `HostsTableModel.rowCount`. -/
def rowCount (hosts : List HostRecord) : Nat := hosts.length

/-- The `DisplayRole` branch of `HostsTableModel.data`.  The result is
`Except`: `.ok v` is the Python return value (`none` = Python `None`),
`.error ()` marks the `TypeError` Python would raise when the address
column concatenates a non-string value with a string. -/
def dataDisplay (hosts : List HostRecord) (row col : Int) :
    Except Unit (Option PyVal) :=
  if col == 0 then .ok (getSafeHostField hosts row "id")
  else if col == 2 then .ok (getSafeHostField hosts row "osAccuracy")
  else if col == 3 then
    let hostname := (getSafeHostField hosts row "hostname").getD (.vStr "")
    let ip := (getSafeHostField hosts row "ip").getD (.vStr "")
    if pyEq hostname (.vStr "") then .ok (some ip)
    else
      match ip, hostname with
      | .vStr a, .vStr b => .ok (some (.vStr (a ++ " (" ++ b ++ ")")))
      | _, _ => .error ()
  else if col == 4 then .ok (getSafeHostField hosts row "ipv4")
  else if col == 5 then .ok (getSafeHostField hosts row "ipv6")
  else if col == 6 then .ok (getSafeHostField hosts row "macaddr")
  else if col == 7 then .ok (getSafeHostField hosts row "status")
  else if col == 8 then .ok (getSafeHostField hosts row "hostname")
  else if col == 9 then .ok (getSafeHostField hosts row "vendor")
  else if col == 10 then .ok (getSafeHostField hosts row "uptime")
  else if col == 11 then .ok (getSafeHostField hosts row "lastboot")
  else if col == 12 then .ok (getSafeHostField hosts row "distance")
  else if col == 13 then .ok (getSafeHostField hosts row "checked")
  else if col == 14 then .ok (getSafeHostField hosts row "state")
  else if col == 15 then .ok (getSafeHostField hosts row "count")
  else .ok (some (.vStr "Not set in view model"))

/-- The `FontRole` branch of `HostsTableModel.data`: strike out the row iff
the cell is in column 3 and the `checked` field equals the string `"True"`. -/
def strikeThroughIfChecked (hosts : List HostRecord) (row col : Int) : Bool :=
  col == 3 && pyEqOpt (getSafeHostField hosts row "checked")
    (some (.vStr "True"))

/-- Lower-cased character list of a string (model of `re.I` matching). -/
def lowerChars (s : String) : List Char := s.toList.map Char.toLower

/-- `containsSub hay pat` decides whether `pat` occurs contiguously in `hay`. -/
def containsSub : List Char → List Char → Bool
  | hay, pat =>
    match hay with
    | [] => pat.isEmpty
    | _ :: t => pat.isPrefixOf hay || containsSub t pat

/-- Case-insensitive substring test, modelling `re.search(pat, hay, re.I)`
for the literal patterns used in the source. -/
def ciContains (hay pat : String) : Bool :=
  containsSub (lowerChars hay) (lowerChars pat)

def questionIcon : String := "./images/question-icon.png"
def linuxIcon : String := "./images/linux-icon.png"
def windowsIcon : String := "./images/windows-icon.png"
def ciscoIcon : String := "./images/cisco-big.jpg"
def hpIcon : String := "./images/hp-icon.png"
def vmwareIcon : String := "./images/vmware-big.jpg"

/-- The `DecorationRole` branch of `HostsTableModel.data` for column 1,
as a pure function from the resolved `osMatch` string (`none` = Python
`None`) to the icon path the code constructs.  Note the source returns
`hp-icon.png` from the `vxworks` branch as well as from the `HP ` branch. -/
def classifyByOSName : Option String → String
  | none => questionIcon
  | some s =>
    if s == "" then questionIcon
    else if ciContains s "linux" then linuxIcon
    else if ciContains s "windows" then windowsIcon
    else if ciContains s "cisco" then ciscoIcon
    else if ciContains s "hp " then hpIcon
    else if ciContains s "vxworks" then hpIcon
    else if ciContains s "vmware" then vmwareIcon
    else questionIcon

/-- The closed enum of OS categories named by the specification. -/
inductive IconCategory where
  | Unknown | Linux | Windows | Cisco | HP | VxWorks | VMware
deriving DecidableEq

/-- Modelled from the spec: `classifyByOSName` as §4.1 words it —
case-insensitive substring match, first match wins, in the priority order
Unknown (absent/empty) → linux → windows → cisco → "HP " → vxworks →
vmware → else Unknown, into the closed seven-value enum. -/
def specClassifyByOSName : Option String → IconCategory
  | none => .Unknown
  | some s =>
    if s == "" then .Unknown
    else if ciContains s "linux" then .Linux
    else if ciContains s "windows" then .Windows
    else if ciContains s "cisco" then .Cisco
    else if ciContains s "hp " then .HP
    else if ciContains s "vxworks" then .VxWorks
    else if ciContains s "vmware" then .VMware
    else .Unknown

/-- The icon asset the source attaches to each category; the `VxWorks`
branch of the source reuses the HP icon. -/
def iconOf : IconCategory → String
  | .Unknown => questionIcon
  | .Linux => linuxIcon
  | .Windows => windowsIcon
  | .Cisco => ciscoIcon
  | .HP => hpIcon
  | .VxWorks => hpIcon
  | .VMware => vmwareIcon

/-- Split a character list into the dot-separated groups. -/
def splitDots : List Char → List (List Char)
  | [] => [[]]
  | c :: rest =>
    let r := splitDots rest
    if c = '.' then [] :: r
    else
      match r with
      | [] => [[c]]
      | g :: gs => (c :: g) :: gs

/-- Decimal value of a non-empty all-digit character group. -/
def digitsToNat : List Char → Option Nat :=
  fun cs =>
    if cs ≠ [] ∧ cs.all (fun c => c.isDigit) then
      some (cs.foldl (fun n c => 10 * n + (c.toNat - 48)) 0)
    else none

/-- Modelled from the spec: the helper `IP2Int` is imported from
`app/auxiliary.py`, which is not among the provided sources.  Per spec
§4.1 `sort`, it parses `ip` as a dotted-quad address into its
32-bit-equivalent integer value; an unparsable string yields no value. -/
def IP2Int (s : String) : Option Nat :=
  match (splitDots s.toList).map digitsToNat with
  | [some a, some b, some c, some d] =>
      if a ≤ 255 && b ≤ 255 && c ≤ 255 && d ≤ 255 then
        some (16777216 * a + 65536 * b + 256 * c + d)
      else none
  | _ => none

/-- The `ip_key` closure inside `HostsTableModel.sort`: extract the ip
(`host.get('ip')` on a dict, position 0 on a tuple), convert with
`IP2Int`; a `None` result, an absent ip, or any exception from `IP2Int`
(logged in the source) yields the minimum key `0`. -/
def ip_key (h : HostRecord) : Nat :=
  let ip : Option PyVal :=
    match h with
    | .dict m => m.lookup "ip"
    | .tup ip _ => some ip
  match ip with
  | some (.vStr s) => (IP2Int s).getD 0
  | _ => 0

/-- Python ordering used by `list.sort` on the OS keys, as a fallible
comparison: numbers and booleans compare numerically, strings compare
lexicographically, and a string compared with a number makes CPython
raise `TypeError`, modelled as `none`. -/
def pyLe? : PyVal → PyVal → Option Bool
  | .vStr a, .vStr b => some (decide (a ≤ b))
  | .vInt a, .vInt b => some (decide (a ≤ b))
  | .vBool a, .vBool b => some (decide ((if a then (1 : Int) else 0) ≤ (if b then 1 else 0)))
  | .vInt a, .vBool b => some (decide (a ≤ (if b then (1 : Int) else 0)))
  | .vBool a, .vInt b => some (decide ((if a then (1 : Int) else 0) ≤ b))
  | _, _ => none

/-- The comparison `list.sort(key=ip_key, reverse=...)` effectively uses:
stable, ascending on `ip_key`, or descending with ties still in original
order when `reverse` is set. -/
def ipLe (descending : Bool) (a b : HostRecord) : Bool :=
  if descending then decide (ip_key b ≤ ip_key a) else decide (ip_key a ≤ ip_key b)

/-- The record sequence produced by the IP branch of `sort`
(`self._hosts.sort(key=ip_key, reverse=...)`).  Python's `list.sort` is a
stable comparison sort; it is modelled by the stable `insertionSort`,
which yields the same sequence as any stable sort for these comparators. -/
def ipSortedHosts (hosts : List HostRecord) (descending : Bool) : List HostRecord :=
  List.insertionSort (fun a b => ipLe descending a b = true) hosts

/-- The `x or ''` applied to each `getSafeHostField(i, 'osMatch')` in
`sortByOS`: `None` and falsy values become the empty string. -/
def osKey (v : Option PyVal) : PyVal :=
  match v with
  | some x => if pyTruthy x then x else .vStr ""
  | none => .vStr ""

/-- Comparison on the `(key, record)` pairs of `sortByOS`
(`zipped.sort(key=lambda x: x[0], reverse=...)`); fails exactly where the
key comparison raises. -/
def osLe? (descending : Bool) (a b : PyVal × HostRecord) : Option Bool :=
  if descending then pyLe? b.1 a.1 else pyLe? a.1 b.1

/-- Stable ordered insertion with a fallible comparison: the first failing
comparison aborts the whole computation, as an uncaught `TypeError` does
inside `list.sort`. -/
def orderedInsertE {α : Type} (le : α → α → Option Bool) (a : α) :
    List α → Except Unit (List α)
  | [] => .ok [a]
  | b :: l =>
    match le a b with
    | none => .error ()
    | some true => .ok (a :: b :: l)
    | some false =>
      match orderedInsertE le a l with
      | .ok r => .ok (b :: r)
      | .error e => .error e

/-- Stable insertion sort with a fallible comparison: the model of the
stable `list.sort` when a comparison it performs may raise. -/
def insertionSortE {α : Type} (le : α → α → Option Bool) :
    List α → Except Unit (List α)
  | [] => .ok []
  | a :: l =>
    match insertionSortE le l with
    | .ok r => orderedInsertE le a r
    | .error e => .error e

/-- `HostsTableModel.sortByOS`: zip the os keys with the records, sort the
pairs by key (stable), keep the records.  A `TypeError` raised while
comparing mismatched key types propagates out of `zipped.sort` (`.error`),
before `self._hosts` is reassigned and before `layoutChanged` is emitted. -/
def sortByOSHosts? (hosts : List HostRecord) (descending : Bool) :
    Except Unit (List HostRecord) :=
  let array := (List.range hosts.length).map
    (fun i => osKey (getSafeHostField hosts (Int.ofNat i) "osMatch"))
  let zipped := array.zip hosts
  match insertionSortE (osLe? descending) zipped with
  | .ok r => .ok (r.map Prod.snd)
  | .error e => .error e

/-- Observable actions of a `sort` call: the two layout signals, each
assignment of a new record sequence, and an uncaught `TypeError` ending
the call. -/
inductive Act where
  | emitLayoutAboutToBeChanged
  | emitLayoutChanged
  | setHostsList (hs : List HostRecord)
  | raiseTypeError
deriving DecidableEq

/-- The action trace of `HostsTableModel.sort(Ncol, order)`:
`layoutAboutToBeChanged` first; columns 0/3 reorder by ip and emit
`layoutChanged`; column 1 delegates to `sortByOS`, which reorders and
emits `layoutChanged` unless a key comparison raises `TypeError`, in
which case the call aborts right there — no reassignment, no
`layoutChanged`; every other column emits `layoutChanged` with no
reordering. -/
def sortRun (hosts : List HostRecord) (Ncol : Int) (descending : Bool) : List Act :=
  if Ncol == 0 || Ncol == 3 then
    [.emitLayoutAboutToBeChanged,
     .setHostsList (ipSortedHosts hosts descending),
     .emitLayoutChanged]
  else if Ncol == 1 then
    match sortByOSHosts? hosts descending with
    | .ok r =>
        [.emitLayoutAboutToBeChanged, .setHostsList r, .emitLayoutChanged]
    | .error _ =>
        [.emitLayoutAboutToBeChanged, .raiseTypeError]
  else
    [.emitLayoutAboutToBeChanged, .emitLayoutChanged]

/-- Fold a trace of actions over the record sequence. -/
def runActs (hosts : List HostRecord) : List Act → List HostRecord
  | [] => hosts
  | .setHostsList hs :: rest => runActs hs rest
  | .emitLayoutAboutToBeChanged :: rest => runActs hosts rest
  | .emitLayoutChanged :: rest => runActs hosts rest
  | .raiseTypeError :: rest => runActs hosts rest

/-- The record sequence after `sort(Ncol, order)` returns. -/
def sortResult (hosts : List HostRecord) (Ncol : Int) (descending : Bool) :
    List HostRecord :=
  runActs hosts (sortRun hosts Ncol descending)

/-- `HostsTableModel.getHostCheckStatusForIp`: first row whose stringified
ip equals the stringified query yields its `checked` field; falling off
the loop returns Python `None`. -/
def getHostCheckStatusForIp (hosts : List HostRecord) (ip : PyVal) : Option PyVal :=
  match (List.range hosts.length).find?
      (fun i => pyStrOpt (getSafeHostField hosts (Int.ofNat i) "ip") == pyStr ip) with
  | some i => getSafeHostField hosts (Int.ofNat i) "checked"
  | none => none

/-- `HostsTableModel.getRowForIp`: first row whose raw ip value equals the
query under Python `==`; `none` when no row matches. -/
def getRowForIp (hosts : List HostRecord) (ip : PyVal) : Option Nat :=
  (List.range hosts.length).find?
    (fun i => pyEqOpt (getSafeHostField hosts (Int.ofNat i) "ip") (some ip))

/-! ### Helper lemmas -/

theorem pyEq_vStr_iff (v : PyVal) (t : String) :
    pyEq v (.vStr t) = true ↔ v = .vStr t := by
  cases v <;> simp [pyEq]

theorem pyEqOpt_some_vStr_iff (o : Option PyVal) (t : String) :
    pyEqOpt o (some (.vStr t)) = true ↔ o = some (.vStr t) := by
  cases o with
  | none => simp [pyEqOpt]
  | some v => simp [pyEqOpt, pyEq_vStr_iff]

theorem sortResult_zero (hosts : List HostRecord) (d : Bool) :
    sortResult hosts 0 d = ipSortedHosts hosts d := rfl

theorem sortResult_three (hosts : List HostRecord) (d : Bool) :
    sortResult hosts 3 d = ipSortedHosts hosts d := rfl

theorem sortRun_one (hosts : List HostRecord) (d : Bool) :
    sortRun hosts 1 d =
      (match sortByOSHosts? hosts d with
       | .ok r =>
           [.emitLayoutAboutToBeChanged, .setHostsList r, .emitLayoutChanged]
       | .error _ =>
           [.emitLayoutAboutToBeChanged, .raiseTypeError]) := rfl

theorem sortResult_one_ok (hosts : List HostRecord) (d : Bool)
    (r : List HostRecord) (h : sortByOSHosts? hosts d = .ok r) :
    sortResult hosts 1 d = r := by
  unfold sortResult
  rw [sortRun_one, h]
  rfl

theorem sortResult_one_error (hosts : List HostRecord) (d : Bool)
    (h : sortByOSHosts? hosts d = .error ()) :
    sortResult hosts 1 d = hosts := by
  unfold sortResult
  rw [sortRun_one, h]
  rfl

theorem orderedInsertE_ok_perm {α : Type} (le : α → α → Option Bool) (a : α) :
    ∀ (l r : List α), orderedInsertE le a l = .ok r → List.Perm r (a :: l)
  | [], r, h => by
    unfold orderedInsertE at h
    cases h
    exact List.Perm.refl _
  | b :: l, r, h => by
    unfold orderedInsertE at h
    cases hle : le a b with
    | none => rw [hle] at h; cases h
    | some bv =>
      rw [hle] at h
      cases bv with
      | true =>
        cases h
        exact List.Perm.refl _
      | false =>
        cases hrec : orderedInsertE le a l with
        | ok s =>
          rw [hrec] at h
          cases h
          exact ((orderedInsertE_ok_perm le a l s hrec).cons b).trans
            (List.Perm.swap a b l)
        | error e => rw [hrec] at h; cases h

theorem insertionSortE_ok_perm {α : Type} (le : α → α → Option Bool) :
    ∀ (l r : List α), insertionSortE le l = .ok r → List.Perm r l
  | [], r, h => by
    unfold insertionSortE at h
    cases h
    exact List.Perm.refl _
  | a :: l, r, h => by
    unfold insertionSortE at h
    cases hrec : insertionSortE le l with
    | ok s =>
      rw [hrec] at h
      exact (orderedInsertE_ok_perm le a s r h).trans
        ((insertionSortE_ok_perm le l s hrec).cons a)
    | error e => rw [hrec] at h; cases h

theorem sortByOSHosts_ok_perm (hosts : List HostRecord) (d : Bool)
    (r : List HostRecord) (h : sortByOSHosts? hosts d = .ok r) :
    List.Perm r hosts := by
  cases hi : insertionSortE (osLe? d)
      (((List.range hosts.length).map
        (fun i => osKey (getSafeHostField hosts (Int.ofNat i) "osMatch"))).zip
          hosts) with
  | ok s =>
    have h2 : sortByOSHosts? hosts d = .ok (s.map Prod.snd) := by
      show (match insertionSortE (osLe? d)
          (((List.range hosts.length).map
            (fun i => osKey (getSafeHostField hosts (Int.ofNat i) "osMatch"))).zip
              hosts) with
        | Except.ok r => Except.ok (r.map Prod.snd)
        | Except.error e => Except.error e) = Except.ok (s.map Prod.snd)
      rw [hi]
    have hr : Except.ok (s.map Prod.snd) = (Except.ok r : Except Unit _) :=
      h2.symm.trans h
    have hr2 : s.map Prod.snd = r := by injection hr
    have hlen : hosts.length ≤
        ((List.range hosts.length).map
          (fun i => osKey (getSafeHostField hosts (Int.ofNat i) "osMatch"))).length := by
      simp
    have h3 : ((((List.range hosts.length).map
          (fun i => osKey (getSafeHostField hosts (Int.ofNat i) "osMatch"))).zip
            hosts).map Prod.snd) = hosts :=
      List.map_snd_zip _ _ hlen
    rw [← hr2]
    exact List.Perm.trans
      ((insertionSortE_ok_perm (osLe? d) _ s hi).map Prod.snd)
      (List.Perm.of_eq h3)
  | error e =>
    have h2 : sortByOSHosts? hosts d = .error e := by
      show (match insertionSortE (osLe? d)
          (((List.range hosts.length).map
            (fun i => osKey (getSafeHostField hosts (Int.ofNat i) "osMatch"))).zip
              hosts) with
        | Except.ok r => Except.ok (r.map Prod.snd)
        | Except.error e => Except.error e) = Except.error e
      rw [hi]
    exact Except.noConfusion (h2.symm.trans h)

theorem sortResult_of_ne (hosts : List HostRecord) (Ncol : Int) (d : Bool)
    (h0 : Ncol ≠ 0) (h1 : Ncol ≠ 1) (h3 : Ncol ≠ 3) :
    sortResult hosts Ncol d = hosts := by
  unfold sortResult sortRun
  rw [if_neg (by simp [h0, h3]), if_neg (by simp [h1])]
  rfl

theorem ipLe_trans (d : Bool) (a b c : HostRecord) :
    ipLe d a b → ipLe d b c → ipLe d a c := by
  cases d <;> simp [ipLe] <;> omega

theorem ipLe_total (d : Bool) (a b : HostRecord) :
    ipLe d a b || ipLe d b a := by
  cases d <;> simp [ipLe] <;> omega

theorem pairwise_filter_all {α : Type} (r : α → α → Prop) (p : α → Bool)
    (hp : ∀ a b, p a = true → p b = true → r a b) (l : List α) :
    (l.filter p).Pairwise r :=
  List.pairwise_of_forall_mem_list
    (fun a ha b hb => hp a b (List.of_mem_filter ha) (List.of_mem_filter hb))

/-- A stable sort leaves the subsequence of elements picked out by any
predicate `p` untouched, provided `r` holds across all `p`-elements
(in particular when `p` selects the elements of one key). -/
theorem insertionSort_filter_stable {α : Type} (r : α → α → Prop)
    [DecidableRel r] (p : α → Bool) (l : List α)
    (hp : ∀ a b, p a = true → p b = true → r a b) :
    (List.insertionSort r l).filter p = l.filter p := by
  have h1 : List.Sublist (l.filter p) l := List.filter_sublist l
  have hpw := pairwise_filter_all r p hp l
  have h2 : List.Sublist (l.filter p) (List.insertionSort r l) :=
    List.sublist_insertionSort hpw h1
  have h3 : List.Sublist ((l.filter p).filter p)
      ((List.insertionSort r l).filter p) := h2.filter p
  rw [List.filter_filter] at h3
  have hq : l.filter (fun a => p a && p a) = l.filter p := by
    simp
  rw [hq] at h3
  have hperm : List.Perm ((List.insertionSort r l).filter p) (l.filter p) :=
    (List.perm_insertionSort r l).filter p
  exact (h3.eq_of_length hperm.length_eq.symm).symm

/-! ### Claims -/

/-- C1: `getSafeHostField` is total: any out-of-range row (in particular on
the empty table) yields `none` for every key; on a structured record the
key is resolved by mapping lookup, a missing key yielding `none`; on a
compact tuple record only `ip` (position 0) and `id` (position 1) resolve
and every other key yields `none`. -/
theorem getSafeHostField_total_spec :
    (∀ (hosts : List HostRecord) (row : Int) (key : String),
      (row < 0 ∨ (hosts.length : Int) ≤ row) →
        getSafeHostField hosts row key = none)
    ∧ (∀ (row : Int) (key : String), getSafeHostField [] row key = none)
    ∧ (∀ (hosts : List HostRecord) (row : Int) (m : List (String × PyVal))
        (key : String), 0 ≤ row → row < (hosts.length : Int) →
        hosts[row.toNat]? = some (.dict m) →
        getSafeHostField hosts row key = m.lookup key)
    ∧ (∀ (hosts : List HostRecord) (row : Int) (ip idv : PyVal),
        0 ≤ row → row < (hosts.length : Int) →
        hosts[row.toNat]? = some (.tup ip idv) →
        getSafeHostField hosts row "ip" = some ip
        ∧ getSafeHostField hosts row "id" = some idv
        ∧ ∀ key, key ≠ "ip" → key ≠ "id" →
            getSafeHostField hosts row key = none) := by
  refine ⟨?_, ?_, ?_, ?_⟩
  · intro hosts row key h
    unfold getSafeHostField
    rw [if_pos h]
  · intro row key
    unfold getSafeHostField
    rw [if_pos (by simp; omega)]
  · intro hosts row m key hlo hhi hget
    unfold getSafeHostField
    rw [if_neg (by omega), hget]
  · intro hosts row ip idv hlo hhi hget
    refine ⟨?_, ?_, ?_⟩
    · unfold getSafeHostField
      rw [if_neg (by omega), hget]
      simp
    · unfold getSafeHostField
      rw [if_neg (by omega), hget]
      simp
    · intro key hk1 hk2
      unfold getSafeHostField
      rw [if_neg (by omega), hget]
      simp [hk1, hk2]

theorem getSafeHostField_total_spec_w :
    getSafeHostField [.tup (.vStr "10.0.0.1") (.vInt 7)] 5 "ip" = none
    ∧ getSafeHostField [] (-1) "id" = none
    ∧ getSafeHostField [.dict [("ip", .vStr "1.1.1.1")]] 0 "hostname" = none
    ∧ getSafeHostField [.tup (.vStr "10.0.0.1") (.vInt 7)] 0 "ip"
        = some (.vStr "10.0.0.1")
    ∧ getSafeHostField [.tup (.vStr "10.0.0.1") (.vInt 7)] 0 "id"
        = some (.vInt 7)
    ∧ getSafeHostField [.tup (.vStr "10.0.0.1") (.vInt 7)] 0 "hostname" = none :=
  ⟨getSafeHostField_total_spec.1 _ 5 "ip" (by right; simp),
   getSafeHostField_total_spec.1 [] (-1) "id" (by left; omega),
   (getSafeHostField_total_spec.2.2.1 _ 0 [("ip", .vStr "1.1.1.1")] "hostname"
      (by omega) (by simp) rfl).trans rfl,
   (getSafeHostField_total_spec.2.2.2 _ 0 (.vStr "10.0.0.1") (.vInt 7)
      (by omega) (by simp) rfl).1,
   (getSafeHostField_total_spec.2.2.2 _ 0 (.vStr "10.0.0.1") (.vInt 7)
      (by omega) (by simp) rfl).2.1,
   (getSafeHostField_total_spec.2.2.2 _ 0 (.vStr "10.0.0.1") (.vInt 7)
      (by omega) (by simp) rfl).2.2 "hostname" (by decide) (by decide)⟩

/-- C5: the `FontRole` strikeout condition holds exactly when the cell is
in column 3 and the row's `checked` field is the exact string `"True"`;
a boolean `true` or the string `"true"` does not trigger it. -/
theorem strikeThroughIfChecked_spec :
    (∀ (hosts : List HostRecord) (row col : Int),
      strikeThroughIfChecked hosts row col = true ↔
        (col = 3 ∧ getSafeHostField hosts row "checked" = some (.vStr "True")))
    ∧ (∀ (hosts : List HostRecord) (row : Int),
        getSafeHostField hosts row "checked" = some (.vBool true) →
        strikeThroughIfChecked hosts row 3 = false)
    ∧ (∀ (hosts : List HostRecord) (row : Int),
        getSafeHostField hosts row "checked" = some (.vStr "true") →
        strikeThroughIfChecked hosts row 3 = false) := by
  refine ⟨?_, ?_, ?_⟩
  · intro hosts row col
    unfold strikeThroughIfChecked
    simp [pyEqOpt_some_vStr_iff]
  · intro hosts row h
    unfold strikeThroughIfChecked
    rw [h]
    rfl
  · intro hosts row h
    unfold strikeThroughIfChecked
    rw [h]
    rfl

theorem strikeThroughIfChecked_spec_w :
    strikeThroughIfChecked [.dict [("checked", .vStr "True")]] 0 3 = true
    ∧ strikeThroughIfChecked [.dict [("checked", .vBool true)]] 0 3 = false
    ∧ strikeThroughIfChecked [.dict [("checked", .vStr "true")]] 0 3 = false :=
  ⟨(strikeThroughIfChecked_spec.1 _ 0 3).mpr ⟨rfl, rfl⟩,
   strikeThroughIfChecked_spec.2.1 _ 0 rfl,
   strikeThroughIfChecked_spec.2.2 _ 0 rfl⟩

/-- C7 counterexample: sorting column 1 of a table whose `osMatch` keys mix
a number with a string makes `zipped.sort` raise `TypeError` (comparing 5
with a string), so the call emits `layoutAboutToBeChanged` and aborts;
`layoutChanged` is never emitted, refuting the universal begin/end bracket. -/
theorem sort_os_abort_loses_end_notification :
    sortRun [.dict [("osMatch", .vInt 5)], .dict [("osMatch", .vStr "Linux")]]
        1 false
      = [.emitLayoutAboutToBeChanged, .raiseTypeError]
    ∧ Act.emitLayoutChanged ∉
        sortRun [.dict [("osMatch", .vInt 5)], .dict [("osMatch", .vStr "Linux")]]
          1 false := by
  have h : sortRun
      [.dict [("osMatch", .vInt 5)], .dict [("osMatch", .vStr "Linux")]] 1 false
      = [.emitLayoutAboutToBeChanged, .raiseTypeError] := rfl
  refine ⟨h, ?_⟩
  rw [h]
  simp

/-- C7 amended: every `sort` call emits `layoutAboutToBeChanged` first,
before any mutation; the IP columns (0, 3) and the no-sort columns always
follow the reorder (if any) with exactly one `layoutChanged`; the OS
column (1) does so whenever every key comparison succeeds, but when a
comparison of mismatched key types raises `TypeError` the call aborts
after the begin notification: the record sequence is left untouched and
`layoutChanged` is never emitted. -/
theorem sort_layout_notifications_amended :
    (∀ (hosts : List HostRecord) (Ncol : Int) (d : Bool), Ncol = 0 ∨ Ncol = 3 →
        sortRun hosts Ncol d
          = [.emitLayoutAboutToBeChanged,
             .setHostsList (ipSortedHosts hosts d), .emitLayoutChanged])
    ∧ (∀ (hosts : List HostRecord) (Ncol : Int) (d : Bool),
        Ncol ≠ 0 → Ncol ≠ 1 → Ncol ≠ 3 →
        sortRun hosts Ncol d
          = [.emitLayoutAboutToBeChanged, .emitLayoutChanged])
    ∧ (∀ (hosts : List HostRecord) (d : Bool) (r : List HostRecord),
        sortByOSHosts? hosts d = .ok r →
        sortRun hosts 1 d
          = [.emitLayoutAboutToBeChanged, .setHostsList r, .emitLayoutChanged])
    ∧ (∀ (hosts : List HostRecord) (d : Bool),
        sortByOSHosts? hosts d = .error () →
        sortRun hosts 1 d = [.emitLayoutAboutToBeChanged, .raiseTypeError]
        ∧ sortResult hosts 1 d = hosts) := by
  refine ⟨?_, ?_, ?_, ?_⟩
  · intro hosts Ncol d h
    rcases h with rfl | rfl <;> rfl
  · intro hosts Ncol d h0 h1 h3
    unfold sortRun
    rw [if_neg (by simp [h0, h3]), if_neg (by simp [h1])]
  · intro hosts d r h
    rw [sortRun_one, h]
  · intro hosts d h
    exact ⟨by rw [sortRun_one, h], sortResult_one_error hosts d h⟩

theorem sort_layout_notifications_amended_w :
    sortRun [.dict [("ip", .vStr "10.0.0.1")]] 0 false
      = [.emitLayoutAboutToBeChanged,
         .setHostsList (ipSortedHosts [.dict [("ip", .vStr "10.0.0.1")]] false),
         .emitLayoutChanged]
    ∧ sortRun [.dict [("ip", .vStr "10.0.0.1")]] 2 false
      = [.emitLayoutAboutToBeChanged, .emitLayoutChanged]
    ∧ sortRun [.dict [("osMatch", .vStr "Linux")]] 1 false
      = [.emitLayoutAboutToBeChanged,
         .setHostsList [.dict [("osMatch", .vStr "Linux")]], .emitLayoutChanged]
    ∧ (sortRun [.dict [("osMatch", .vInt 5)], .dict [("osMatch", .vStr "Linux")]]
          1 true
        = [.emitLayoutAboutToBeChanged, .raiseTypeError]
       ∧ sortResult
            [.dict [("osMatch", .vInt 5)], .dict [("osMatch", .vStr "Linux")]]
            1 true
        = [.dict [("osMatch", .vInt 5)], .dict [("osMatch", .vStr "Linux")]]) :=
  ⟨sort_layout_notifications_amended.1 _ 0 false (Or.inl rfl),
   sort_layout_notifications_amended.2.1 _ 2 false (by decide) (by decide)
     (by decide),
   sort_layout_notifications_amended.2.2.1 _ false _ rfl,
   sort_layout_notifications_amended.2.2.2 _ true rfl⟩

/-- C8: on any column other than 0, 1 and 3, `sort` leaves the record
sequence exactly as it was. -/
theorem sort_other_columns_noop :
    ∀ (hosts : List HostRecord) (Ncol : Int) (d : Bool),
      Ncol ≠ 0 → Ncol ≠ 1 → Ncol ≠ 3 →
      sortResult hosts Ncol d = hosts :=
  fun hosts Ncol d h0 h1 h3 => sortResult_of_ne hosts Ncol d h0 h1 h3

theorem sort_other_columns_noop_w :
    sortResult [.dict [("ip", .vStr "9.9.9.9")], .tup (.vStr "1.2.3.4") (.vInt 1)]
        2 false
      = [.dict [("ip", .vStr "9.9.9.9")], .tup (.vStr "1.2.3.4") (.vInt 1)] :=
  sort_other_columns_noop _ 2 false (by decide) (by decide) (by decide)

/-- C6: `sort` only reorders: on every column and direction the resulting
record sequence (including the OS path, which rebuilds the list from
(key, record) pairs) is a permutation of the previous one. -/
theorem sort_is_permutation :
    ∀ (hosts : List HostRecord) (Ncol : Int) (d : Bool),
      List.Perm (sortResult hosts Ncol d) hosts := by
  intro hosts Ncol d
  by_cases h0 : Ncol = 0
  · subst h0
    exact List.perm_insertionSort _ hosts
  · by_cases h3 : Ncol = 3
    · subst h3
      exact List.perm_insertionSort _ hosts
    · by_cases h1 : Ncol = 1
      · subst h1
        cases hos : sortByOSHosts? hosts d with
        | ok r =>
          rw [sortResult_one_ok hosts d r hos]
          exact sortByOSHosts_ok_perm hosts d r hos
        | error e =>
          rw [sortResult_one_error hosts d (by rw [hos])]
      · rw [sortResult_of_ne hosts Ncol d h0 h1 h3]

/-- C2 counterexample: on the code, an input matching `vxworks` (and none
of the higher-priority patterns) produces the very same icon as an input
matching `HP ` — both yield `hp-icon.png` — so vxworks is not classified
into a category distinct from HP. -/
theorem classify_vxworks_not_distinct :
    classifyByOSName (some "VxWorks 6.8") = classifyByOSName (some "HP LaserJet")
    ∧ classifyByOSName (some "VxWorks 6.8") = hpIcon := ⟨rfl, rfl⟩

/-- C2 amended: the decoration classifier matches case-insensitively with
first match winning, in the exact priority order absent/empty → linux →
windows → cisco → `HP ` → vxworks → vmware → unknown (it refines the
spec's enum classifier composed with the icon assignment), but the
vxworks branch returns the same icon as the HP branch, and those are the
only two categories whose outputs coincide. -/
theorem classifyByOSName_amended :
    (∀ s, classifyByOSName s = iconOf (specClassifyByOSName s))
    ∧ (∀ c c', iconOf c = iconOf c' →
        c = c' ∨ (c = .HP ∧ c' = .VxWorks) ∨ (c = .VxWorks ∧ c' = .HP)) := by
  constructor
  · intro s
    cases s with
    | none => rfl
    | some t =>
      simp only [classifyByOSName, specClassifyByOSName, apply_ite iconOf]
      rfl
  · intro c c' h
    cases c <;> cases c' <;> revert h <;> decide

theorem classifyByOSName_amended_w :
    classifyByOSName (some "Linux 5.4")
      = iconOf (specClassifyByOSName (some "Linux 5.4"))
    ∧ (IconCategory.HP = IconCategory.VxWorks
        ∨ (IconCategory.HP = IconCategory.HP
            ∧ IconCategory.VxWorks = IconCategory.VxWorks)
        ∨ (IconCategory.HP = IconCategory.VxWorks
            ∧ IconCategory.VxWorks = IconCategory.HP)) :=
  ⟨classifyByOSName_amended.1 (some "Linux 5.4"),
   classifyByOSName_amended.2 .HP .VxWorks rfl⟩

/-- C3 counterexample: with an in-range row whose record lacks the resolved
field, column 0 returns the Python `None` marker, not the empty string. -/
theorem dataDisplay_absent_yields_none :
    dataDisplay [.dict []] 0 0 = .ok none
    ∧ dataDisplay [.dict []] 0 0 ≠ .ok (some (.vStr "")) :=
  ⟨rfl, fun h => Option.noConfusion (Except.ok.inj h)⟩

/-- C3 amended: only the address column (3) renders absent fields as the
empty string; every other recognised column passes the resolved field
value straight through, so an absent field yields the `None` marker
(which the Qt view layer displays as an empty cell). -/
theorem dataDisplay_absent_amended :
    ∀ (hosts : List HostRecord) (row : Int),
      (dataDisplay hosts row 0 = .ok (getSafeHostField hosts row "id")
       ∧ dataDisplay hosts row 2 = .ok (getSafeHostField hosts row "osAccuracy")
       ∧ dataDisplay hosts row 4 = .ok (getSafeHostField hosts row "ipv4")
       ∧ dataDisplay hosts row 5 = .ok (getSafeHostField hosts row "ipv6")
       ∧ dataDisplay hosts row 6 = .ok (getSafeHostField hosts row "macaddr")
       ∧ dataDisplay hosts row 7 = .ok (getSafeHostField hosts row "status")
       ∧ dataDisplay hosts row 8 = .ok (getSafeHostField hosts row "hostname")
       ∧ dataDisplay hosts row 9 = .ok (getSafeHostField hosts row "vendor")
       ∧ dataDisplay hosts row 10 = .ok (getSafeHostField hosts row "uptime")
       ∧ dataDisplay hosts row 11 = .ok (getSafeHostField hosts row "lastboot")
       ∧ dataDisplay hosts row 12 = .ok (getSafeHostField hosts row "distance")
       ∧ dataDisplay hosts row 13 = .ok (getSafeHostField hosts row "checked")
       ∧ dataDisplay hosts row 14 = .ok (getSafeHostField hosts row "state")
       ∧ dataDisplay hosts row 15 = .ok (getSafeHostField hosts row "count"))
      ∧ (getSafeHostField hosts row "ip" = none →
         getSafeHostField hosts row "hostname" = none →
         dataDisplay hosts row 3 = .ok (some (.vStr ""))) := by
  intro hosts row
  refine ⟨⟨rfl, rfl, rfl, rfl, rfl, rfl, rfl, rfl, rfl, rfl, rfl, rfl, rfl, rfl⟩, ?_⟩
  intro h1 h2
  have h3 : dataDisplay hosts row 3 =
      (let hostname := (getSafeHostField hosts row "hostname").getD (.vStr "")
       let ip := (getSafeHostField hosts row "ip").getD (.vStr "")
       if pyEq hostname (.vStr "") then Except.ok (some ip)
       else
         match ip, hostname with
         | .vStr a, .vStr b => Except.ok (some (.vStr (a ++ " (" ++ b ++ ")")))
         | _, _ => Except.error ()) := rfl
  rw [h3, h1, h2]
  rfl

theorem dataDisplay_absent_amended_w :
    dataDisplay [.dict []] 0 3 = .ok (some (.vStr "")) :=
  (dataDisplay_absent_amended [.dict []] 0).2 rfl rfl

/-- C9: the address column returns exactly the record's ip string when the
hostname is absent or empty, and the ip followed by `" (" ++ hostname ++ ")"`
when the hostname is non-empty; an absent ip contributes the empty string. -/
theorem address_column_display :
    ∀ (hosts : List HostRecord) (row : Int) (s : String),
      (getSafeHostField hosts row "ip" = some (.vStr s)
        ∨ (getSafeHostField hosts row "ip" = none ∧ s = "")) →
      ((getSafeHostField hosts row "hostname" = none
          ∨ getSafeHostField hosts row "hostname" = some (.vStr "")) →
        dataDisplay hosts row 3 = .ok (some (.vStr s)))
      ∧ (∀ hn, hn ≠ "" →
          getSafeHostField hosts row "hostname" = some (.vStr hn) →
          dataDisplay hosts row 3
            = .ok (some (.vStr (s ++ " (" ++ hn ++ ")")))) := by
  intro hosts row s hip
  have h3 : dataDisplay hosts row 3 =
      (let hostname := (getSafeHostField hosts row "hostname").getD (.vStr "")
       let ip := (getSafeHostField hosts row "ip").getD (.vStr "")
       if pyEq hostname (.vStr "") then Except.ok (some ip)
       else
         match ip, hostname with
         | .vStr a, .vStr b => Except.ok (some (.vStr (a ++ " (" ++ b ++ ")")))
         | _, _ => Except.error ()) := rfl
  constructor
  · intro hhn
    rcases hip with h | ⟨h, rfl⟩ <;> rcases hhn with h2 | h2 <;>
      rw [h3, h, h2] <;> rfl
  · intro hn hne h2
    rcases hip with h | ⟨h, rfl⟩ <;> rw [h3, h, h2] <;>
      simp [pyEq, hne]

theorem address_column_display_w :
    dataDisplay [.dict [("ip", .vStr "1.2.3.4")]] 0 3
        = .ok (some (.vStr "1.2.3.4"))
    ∧ dataDisplay [.dict [("ip", .vStr "1.2.3.4"), ("hostname", .vStr "web")]] 0 3
        = .ok (some (.vStr "1.2.3.4 (web)")) :=
  ⟨(address_column_display [.dict [("ip", .vStr "1.2.3.4")]] 0 "1.2.3.4"
      (Or.inl rfl)).1 (Or.inl rfl),
   ((address_column_display
      [.dict [("ip", .vStr "1.2.3.4"), ("hostname", .vStr "web")]] 0 "1.2.3.4"
      (Or.inl rfl)).2 "web" (by decide) rfl).trans (by rfl)⟩

/-- C4: sorting by column 0 or 3 orders the records by the 32-bit value of
their parsed `ip` (ascending, or descending when requested); an absent or
unparsable ip gets the minimum key 0 (sorting first ascending, last
descending); the sort is total (the parse failure is swallowed, not
propagated) and stable: records of equal key keep their prior relative
order.  The last two conjuncts check the spec's own example. -/
theorem sort_by_ip_spec :
    (∀ (m : List (String × PyVal)), m.lookup "ip" = none → ip_key (.dict m) = 0)
    ∧ (∀ (m : List (String × PyVal)) (s : String),
        m.lookup "ip" = some (.vStr s) → IP2Int s = none → ip_key (.dict m) = 0)
    ∧ (∀ (m : List (String × PyVal)) (s : String) (v : Nat),
        m.lookup "ip" = some (.vStr s) → IP2Int s = some v → ip_key (.dict m) = v)
    ∧ (∀ (hosts : List HostRecord) (Ncol : Int) (d : Bool), Ncol = 0 ∨ Ncol = 3 →
        (sortResult hosts Ncol d).Pairwise (fun a b => ipLe d a b = true))
    ∧ (∀ (hosts : List HostRecord) (Ncol : Int) (d : Bool) (k : Nat),
        Ncol = 0 ∨ Ncol = 3 →
        (sortResult hosts Ncol d).filter (fun h => ip_key h == k)
          = hosts.filter (fun h => ip_key h == k))
    ∧ sortResult
        [.dict [("ip", .vStr "10.0.0.5")], .dict [("ip", .vStr "10.0.0.2")],
         .dict [("ip", .vStr "bad-ip")]] 0 false
      = [.dict [("ip", .vStr "bad-ip")], .dict [("ip", .vStr "10.0.0.2")],
         .dict [("ip", .vStr "10.0.0.5")]]
    ∧ sortResult
        [.dict [("ip", .vStr "10.0.0.5")], .dict [("ip", .vStr "10.0.0.2")],
         .dict [("ip", .vStr "bad-ip")]] 0 true
      = [.dict [("ip", .vStr "10.0.0.5")], .dict [("ip", .vStr "10.0.0.2")],
         .dict [("ip", .vStr "bad-ip")]] := by
  refine ⟨?_, ?_, ?_, ?_, ?_, rfl, rfl⟩
  · intro m h
    simp [ip_key, h]
  · intro m s h1 h2
    simp [ip_key, h1, h2]
  · intro m s v h1 h2
    simp [ip_key, h1, h2]
  · intro hosts Ncol d h
    haveI : IsTotal HostRecord (fun a b => ipLe d a b = true) :=
      ⟨fun a b => Bool.or_eq_true_iff.mp (ipLe_total d a b)⟩
    haveI : IsTrans HostRecord (fun a b => ipLe d a b = true) :=
      ⟨fun a b c hab hbc => ipLe_trans d a b c hab hbc⟩
    rcases h with rfl | rfl
    · rw [sortResult_zero]
      exact List.sorted_insertionSort _ hosts
    · rw [sortResult_three]
      exact List.sorted_insertionSort _ hosts
  · intro hosts Ncol d k h
    have hp : ∀ a b, (ip_key a == k) = true → (ip_key b == k) = true →
        ipLe d a b = true := by
      intro a b ha hb
      cases d <;> simp_all [ipLe]
    rcases h with rfl | rfl
    · rw [sortResult_zero]
      exact insertionSort_filter_stable _ _ hosts hp
    · rw [sortResult_three]
      exact insertionSort_filter_stable _ _ hosts hp

theorem sort_by_ip_spec_w :
    ip_key (.dict [("hostname", .vStr "web")]) = 0
    ∧ ip_key (.dict [("ip", .vStr "bad-ip")]) = 0
    ∧ ip_key (.dict [("ip", .vStr "10.0.0.2")]) = 167772162
    ∧ (sortResult [.dict [("ip", .vStr "bad-ip")]] 0 false).Pairwise
        (fun a b => ipLe false a b = true)
    ∧ (sortResult [.dict [("ip", .vStr "bad-ip")]] 3 true).filter
        (fun h => ip_key h == 0) = [.dict [("ip", .vStr "bad-ip")]] :=
  ⟨sort_by_ip_spec.1 _ rfl,
   sort_by_ip_spec.2.1 _ "bad-ip" rfl rfl,
   sort_by_ip_spec.2.2.1 _ "10.0.0.2" 167772162 rfl rfl,
   sort_by_ip_spec.2.2.2.1 _ 0 false (Or.inl rfl),
   (sort_by_ip_spec.2.2.2.2.1 _ 3 true 0 (Or.inr rfl)).trans rfl⟩

/-- C10: `getRowForIp` compares raw values while `getHostCheckStatusForIp`
compares string renderings, so an ip stored as the integer 5 and queried
as the string "5" is missed by the former but found by the latter, which
returns that row's checked value. -/
theorem ip_lookup_disagreement :
    ∃ (hosts : List HostRecord) (q : PyVal),
      getRowForIp hosts q = none
      ∧ getSafeHostField hosts 0 "checked" = some (.vStr "True")
      ∧ getHostCheckStatusForIp hosts q = some (.vStr "True") :=
  ⟨[.dict [("ip", .vInt 5), ("checked", .vStr "True")]], .vStr "5",
    by decide⟩

end Legion
